import Mathlib

/-!
Verification of the evm-transfer-monitor core against its specification.

The Python source is shallowly embedded: each relevant method becomes a pure
Lean function over explicit state, machine integers become `Nat`/`Int`,
amounts and timestamps become `Rat` (Python floats are used only for ordering
comparisons in the monitored code paths), and fallible code returns `Option`.
Hex calldata and addresses are modelled as `List Char`.
-/

namespace EvmMonitor

/-- Hex / address strings are lists of characters. -/
abbrev HexStr := List Char

/-- Lowercasing of an address or hex string, `str.lower()` in the source. -/
def lowerStr (s : HexStr) : HexStr := s.map Char.toLower

/-- Value of one hexadecimal digit, or `none` for a non-hex character.
Models the digits accepted by Python `int(s, 16)` on plain hex input. -/
def hexDigitVal (c : Char) : Option Nat :=
  if '0' ≤ c ∧ c ≤ '9' then some (c.toNat - '0'.toNat)
  else if 'a' ≤ c ∧ c ≤ 'f' then some (c.toNat - 'a'.toNat + 10)
  else if 'A' ≤ c ∧ c ≤ 'F' then some (c.toNat - 'A'.toNat + 10)
  else none

/-- Accumulating hex parser: fails on the first non-hex character. -/
def parseHexCore : HexStr → Nat → Option Nat
  | [], acc => some acc
  | c :: rest, acc =>
    match hexDigitVal c with
    | some d => parseHexCore rest (16 * acc + d)
    | none => none

/-- Models `int(s, 16)` on a plain hex-digit string: the empty string raises
`ValueError` (here `none`); otherwise the big-endian hex value. -/
def parseHexNat (l : HexStr) : Option Nat :=
  if l = [] then none else parseHexCore l 0

/-- Models `str.ljust(width, '0')`: right-pad with `'0'` to the given width. -/
def padRight (l : HexStr) (width : Nat) : HexStr :=
  l ++ List.replicate (width - l.length) '0'

/-- Models the input normalisation in `TokenParser.parse_erc20_transfer`:
ensure a `0x` prefix then strip it, i.e. strip the prefix when present. -/
def normalizeHex (l : HexStr) : HexStr :=
  if l.take 2 = ['0', 'x'] then l.drop 2 else l

/-- The ERC-20 `transfer(address,uint256)` selector `a9059cbb`
(`TokenParser.TRANSFER_SIGNATURE` without the `0x`). -/
def transferSelector : HexStr := ['a', '9', '0', '5', '9', 'c', 'b', 'b']

/-- Models `TokenParser._is_valid_address`: 42 characters, `0x` prefix,
and the remaining 40 characters parse as hex. -/
def isValidAddress (a : HexStr) : Bool :=
  a.length = 42 && a.take 2 = ['0', 'x'] && (parseHexNat (a.drop 2)).isSome

/-- The transaction fields the monitored code paths read
(`tx['from']`, `tx['to']`, `tx['value']`, `tx['input']`, `tx['hash']`,
`tx['blockNumber']`). -/
structure Tx where
  hash : String
  txFrom : HexStr
  txTo : Option HexStr
  valueWei : Nat
  input : HexStr
  blockNumber : Nat
  deriving DecidableEq, Repr

/-- Decoded ERC-20 transfer, the dict returned by `parse_erc20_transfer`. -/
structure TokenInfo where
  tFrom : HexStr
  tTo : HexStr
  amount : Rat
  token : String
  contract : HexStr
  rawAmountWei : Nat
  deriving DecidableEq, Repr

/-- Per-chain token tables of `TokenParser`: `contracts` maps a symbol to its
contract address (`none` for the native token), `decimals` to its decimals. -/
structure TokenParser where
  contracts : List (String × Option HexStr)
  decimals : List (String × Nat)
  deriving DecidableEq, Repr

/-- Models `TokenParser.is_token_contract`: the first symbol whose non-null
contract address equals the given address case-insensitively. -/
def isTokenContract (p : TokenParser) (addr : HexStr) : Option String :=
  if addr = [] then none
  else
    (p.contracts.find? fun tc =>
        match tc.2 with
        | some c => lowerStr c = lowerStr addr
        | none => false).map Prod.fst

/-- Models `TokenParser.parse_erc20_transfer` (utils/token_parser.py line 79
onward) for one transaction and symbol. -/
def parseErc20Transfer (p : TokenParser) (sym : String) (tx : Tx) :
    Option TokenInfo :=
  match p.contracts.lookup sym with
  | none => none
  | some none => none
  | some (some contract) =>
    match tx.txTo with
    | none => none
    | some t =>
      if t = [] then none
      else if lowerStr t ≠ lowerStr contract then none
      else if tx.input = [] then none
      else
        let hexData := normalizeHex tx.input
        if hexData.length < 72 then none
        else if lowerStr (hexData.take 8) ≠ transferSelector then none
        else
          let addressParam := (hexData.drop 8).take 64
          let toAddress := '0' :: 'x' :: addressParam.drop 24
          let amountHex :=
            if 136 ≤ hexData.length then some ((hexData.drop 72).take 64)
            else if 72 < hexData.length then some (padRight (hexData.drop 72) 64)
            else none
          match amountHex with
          | none => none
          | some ah =>
            match parseHexNat ah with
            | none => none
            | some amountWei =>
              let dec := ((p.decimals.lookup sym).getD 18)
              let amount : Rat := (amountWei : Rat) / (10 : Rat) ^ dec
              if isValidAddress toAddress then
                some { tFrom := tx.txFrom, tTo := lowerStr toAddress,
                       amount := amount, token := sym,
                       contract := lowerStr contract,
                       rawAmountWei := amountWei }
              else none

/-- The two monitoring strategies of `MonitorStrategy`. -/
inductive Strategy
  | largeAmount
  | watchAddress
  deriving DecidableEq, Repr

/-- The configuration fields of `MonitorConfig` that the monitored code paths
read: the active strategy, the native-token symbol, the per-symbol thresholds,
the watch-address list together with its cached lowercased lookup set, the
confirmation parameters. -/
structure MonitorConfig where
  strategy : Strategy
  tokenName : String
  thresholds : List (String × Rat)
  watchAddresses : List HexStr
  watchedSet : List HexStr
  requiredConfirmations : Nat
  confirmationCheckInterval : Rat
  deriving DecidableEq, Repr

/-- Result of `MonitorConfig.get_threshold`, a Python float that may be
`float('inf')`. -/
inductive FloatTh
  | val (q : Rat)
  | inf
  deriving DecidableEq, Repr

/-- Models `amount < threshold` on Python floats where the threshold may be
infinite: every (finite) amount is below `inf`. -/
def floatLt (a : Rat) : FloatTh → Bool
  | .val t => a < t
  | .inf => true

/-- Models `amount >= threshold` on Python floats where the threshold may be
infinite: no (finite) amount reaches `inf`. -/
def floatGe (a : Rat) : FloatTh → Bool
  | .val t => t ≤ a
  | .inf => false

/-- Models `MonitorConfig.get_threshold`: `0` outside the large-amount
strategy, otherwise `thresholds.get(token_type, float('inf'))`. -/
def getThreshold (cfg : MonitorConfig) (sym : String) : FloatTh :=
  if cfg.strategy = .largeAmount then
    match cfg.thresholds.lookup sym with
    | some t => .val t
    | none => .inf
  else .val 0

/-- Models `MonitorConfig.is_watched_address`: membership of the lowercased
address in the cached lowercase set. -/
def isWatchedAddress (cfg : MonitorConfig) (a : HexStr) : Bool :=
  lowerStr a ∈ cfg.watchedSet

/-- Models `MonitorConfig.add_watch_address`: append the original address and
its lowercase form unless the lowercase form is already in the set. -/
def addWatchAddress (cfg : MonitorConfig) (a : HexStr) : MonitorConfig :=
  if lowerStr a ∈ cfg.watchedSet then cfg
  else { cfg with watchAddresses := cfg.watchAddresses ++ [a],
                  watchedSet := cfg.watchedSet ++ [lowerStr a] }

/-- The `TransactionInfo` fields the pipeline reads. -/
structure TransactionInfo where
  hash : String
  value : Rat
  txType : String
  blockNumber : Nat
  tokenInfo : Option TokenInfo
  deriving DecidableEq, Repr

/-- Models `TransactionProcessor._process_native_transaction`: zero-value
transactions are ignored; under the large-amount strategy the ether amount is
compared against the native-token threshold, under the watch-address strategy
the raw `to` address must be present and watched. -/
def processNativeTransaction (cfg : MonitorConfig) (tx : Tx) :
    Option TransactionInfo :=
  if tx.valueWei = 0 then none
  else
    let amount : Rat := (tx.valueWei : Rat) / (10 : Rat) ^ (18 : Nat)
    let accepted : Bool :=
      match cfg.strategy with
      | .largeAmount => !(floatLt amount (getThreshold cfg cfg.tokenName))
      | .watchAddress =>
        match tx.txTo with
        | none => false
        | some t => if t = [] then false else isWatchedAddress cfg t
    if accepted then
      some { hash := tx.hash, value := amount, txType := cfg.tokenName,
             blockNumber := tx.blockNumber, tokenInfo := none }
    else none

/-- Models the strategy check of
`TransactionProcessor._process_token_transaction` (lines 134-147): under
large-amount, `token_info['amount'] >= threshold and to_address`; under
watch-address, `to_address and is_watched(to_address) and
to_address != from_address` on the decoded, lowercased addresses. -/
def tokenShouldProcess (cfg : MonitorConfig) (sym : String)
    (info : TokenInfo) : Bool :=
  match cfg.strategy with
  | .largeAmount =>
    floatGe info.amount (getThreshold cfg sym) && !(lowerStr info.tTo = [])
  | .watchAddress =>
    let toAddr := lowerStr info.tTo
    let fromAddr := lowerStr info.tFrom
    !(toAddr = []) && isWatchedAddress cfg toAddr && !(toAddr = fromAddr)

/-- Models `TransactionProcessor._process_token_transaction`: the transaction
must be addressed to a known token contract, its calldata must decode as an
ERC-20 transfer, and the strategy check must pass. -/
def processTokenTransaction (cfg : MonitorConfig) (p : TokenParser) (tx : Tx) :
    Option TransactionInfo :=
  match tx.txTo with
  | none => none
  | some t =>
    if t = [] then none
    else
      match isTokenContract p t with
      | none => none
      | some sym =>
        match parseErc20Transfer p sym tx with
        | none => none
        | some info =>
          if tokenShouldProcess cfg sym info then
            some { hash := tx.hash, value := info.amount, txType := sym,
                   blockNumber := tx.blockNumber, tokenInfo := some info }
          else none

/-- Models `TransactionProcessor.process_transaction`: the native path first,
then the token path. -/
def processTransaction (cfg : MonitorConfig) (p : TokenParser) (tx : Tx) :
    Option TransactionInfo :=
  match processNativeTransaction cfg tx with
  | some info => some info
  | none => processTokenTransaction cfg p tx

/-- Outcome of handling one transaction inside
`EVMMonitor._process_single_block`: whether the asynchronous deposit-store
save was issued (it fires inside `_process_*_transaction` as soon as the
transaction is accepted) and whether the transaction was added to the pending
index (the monitor-level guard skips it when the raw transaction's `from`
equals its `to` after lowercasing; a missing `to` raises and aborts, adding
nothing). -/
def processSingleBlockTx (cfg : MonitorConfig) (p : TokenParser) (tx : Tx) :
    Bool × Bool :=
  match processTransaction cfg p tx with
  | none => (false, false)
  | some _ =>
    (true,
      match tx.txTo with
      | some t => if lowerStr tx.txFrom = lowerStr t then false else true
      | none => false)

/-- Per-block outcome of `_process_single_block` as seen by the loop in
`EVMMonitor._process_new_blocks`: a processed block, a `BlockNotFound`
exception, or any other per-block error. -/
inductive BlockFetch
  | ok
  | notFound
  | err
  deriving DecidableEq, Repr

/-- The `for block_number in range(last_block + 1, current_block + 1)` loop of
`EVMMonitor._process_new_blocks`: both `BlockNotFound` and other errors are
logged and the loop continues with the next block; the result collects the
blocks that were processed. -/
def newBlocksLoop (fetch : Nat → BlockFetch) : List Nat → List Nat
  | [] => []
  | n :: rest =>
    match fetch n with
    | .ok => n :: newBlocksLoop fetch rest
    | .notFound => newBlocksLoop fetch rest
    | .err => newBlocksLoop fetch rest

/-- Models `EVMMonitor._process_new_blocks`: if fetching the head fails the
old `last_block` is returned; otherwise every block in
`(last_block, current_block]` is attempted and the function returns the
fetched head as the new `last_block`, together with the processed blocks. -/
def processNewBlocks (lastBlock : Nat) (head : Option Nat)
    (fetch : Nat → BlockFetch) : Nat × List Nat :=
  match head with
  | none => (lastBlock, [])
  | some cur =>
    (cur, newBlocksLoop fetch (List.range' (lastBlock + 1) (cur - lastBlock)))

/-- The `NotificationRecord` columns the monitored code paths touch. -/
structure NotifRec where
  txHash : String
  status : String
  attemptCount : Nat
  maxAttempts : Nat
  lastAttemptAt : Option Rat
  successAt : Option Rat
  responseData : String
  errorMessage : String
  nextRetryAt : Option Rat
  deriving DecidableEq, Repr

/-- A freshly constructed `NotificationRecord`: status `pending`, zero
attempts, the given attempt budget (3 by column default). -/
def newNotifRec (txHash : String) (maxA : Nat) : NotifRec :=
  { txHash := txHash, status := "pending", attemptCount := 0,
    maxAttempts := maxA, lastAttemptAt := none, successAt := none,
    responseData := "", errorMessage := "", nextRetryAt := none }

/-- Models `NotificationRecord.is_max_attempts_reached`. -/
def isMaxAttemptsReached (r : NotifRec) : Bool :=
  r.maxAttempts ≤ r.attemptCount

/-- Models `NotificationRecord.increment_attempt`. -/
def incrementAttempt (r : NotifRec) : NotifRec :=
  { r with attemptCount := r.attemptCount + 1 }

/-- Models `NotificationRecord.mark_as_sent`. -/
def markAsSent (r : NotifRec) (resp : String) (now : Rat) : NotifRec :=
  { r with status := "sent", successAt := some now, lastAttemptAt := some now,
           responseData := resp, errorMessage := "" }

/-- Models `NotificationRecord.mark_as_failed`: status `failed` with the given
retry time, except that a record at its attempt cap becomes `failed_final`
with `next_retry_at` cleared. -/
def markAsFailed (r : NotifRec) (err : String) (nextRetry : Option Rat)
    (now : Rat) : NotifRec :=
  let r1 := { r with status := "failed", lastAttemptAt := some now,
                     errorMessage := err, nextRetryAt := nextRetry }
  if isMaxAttemptsReached r1 then
    { r1 with status := "failed_final", nextRetryAt := none }
  else r1

/-- Models the record update in `NotificationService.send_notification`
(lines 304-320): increment the attempt count, then mark sent on success, or
mark failed with a retry time only when the cap is not yet reached. -/
def sendNotificationUpdate (r : NotifRec) (ok : Bool) (resp err : String)
    (now retryDelay : Rat) : NotifRec :=
  let r1 := incrementAttempt r
  if ok then markAsSent r1 resp now
  else
    let nextRetry : Option Rat :=
      if isMaxAttemptsReached r1 then none
      else some (now + retryDelay * 60)
    markAsFailed r1 err nextRetry now

/-- One webhook delivery attempt as classified by
`NotificationService.send_notification_async`: an HTTP response with a status
code, a timeout, an `aiohttp.ClientError`, or any other exception. -/
inductive AttemptOutcome
  | httpStatus (code : Nat)
  | timeoutErr
  | clientErr (msg : String)
  | otherErr (msg : String)
  deriving DecidableEq, Repr

/-- Models the success test of `send_notification_async`: only the branch
`if response.status == 200` counts an attempt as successful; every other
status code, a timeout, and every exception fall through to the retry path. -/
def attemptSucceeds : AttemptOutcome → Bool
  | .httpStatus code => code = 200
  | .timeoutErr => false
  | .clientErr _ => false
  | .otherErr _ => false

/-- The inline retry loop of `send_notification_async`: up to
`max_retry_attempts` attempts, overall success as soon as one attempt has a
200 status. -/
def deliveryLoop (outcomes : Nat → AttemptOutcome) : Nat → Nat → Bool
  | 0, _ => false
  | n + 1, attempt =>
    if attemptSucceeds (outcomes attempt) then true
    else deliveryLoop outcomes n (attempt + 1)

/-- The `DepositRecord` columns the monitored code paths touch. -/
structure DepositRec where
  txHash : String
  status : String
  confirmations : Nat
  notificationGenerated : Bool
  userId : String
  processedAt : Option Rat
  deriving DecidableEq, Repr

/-- Models `DepositRecord.mark_notification_generated`: set the flag and set
`processed_at` on its first transition. -/
def markNotificationGenerated (d : DepositRec) (now : Rat) : DepositRec :=
  { d with notificationGenerated := true,
           processedAt := match d.processedAt with
                          | none => some now
                          | some t => some t }

/-- Models `TransactionAdapter.update_transaction_status_async`: find the row
with the given `tx_hash` and overwrite its status and confirmation count;
report whether a row was found. -/
def updateTransactionStatus : List DepositRec → String → String → Nat →
    Bool × List DepositRec
  | [], _, _, _ => (false, [])
  | r :: rest, h, st, conf =>
    if r.txHash = h then
      (true, { r with status := st, confirmations := conf } :: rest)
    else
      let res := updateTransactionStatus rest h st conf
      (res.1, r :: res.2)

/-- Models the eligibility filter of
`AsyncTransactionAdapter.get_pending_notifications` and of the scheduler
query: status `confirmed`, enough confirmations, notification not yet
generated. -/
def awaitingNotification (reqConf : Nat) (d : DepositRec) : Bool :=
  d.status = "confirmed" && reqConf ≤ d.confirmations &&
    d.notificationGenerated = false

/-- Joint durable state of one deposit and its notification records, the
outbox that `ConfirmationManager._send_notification_async` and
`NotificationScheduler.process_pending_notifications` operate on. -/
structure OutboxState where
  deposit : DepositRec
  notifs : List NotifRec
  deriving DecidableEq, Repr

/-- Models one run of `ConfirmationManager._send_notification_async` for this
deposit, committed as a single transaction: when the deposit is not found by
the awaiting-notification query nothing happens; otherwise a pending
`NotificationRecord` is created and, depending on the webhook result, either
marked sent together with the `notification_generated` flip, or marked
failed. -/
def confSendStep (reqConf : Nat) (ok : Bool) (resp err : String) (now : Rat)
    (s : OutboxState) : OutboxState :=
  if awaitingNotification reqConf s.deposit then
    let nr := newNotifRec s.deposit.txHash 3
    if ok then
      { deposit := markNotificationGenerated s.deposit now,
        notifs := s.notifs ++ [markAsSent nr resp now] }
    else
      { deposit := s.deposit, notifs := s.notifs ++ [markAsFailed nr err none now] }
  else s

/-- Models one record's worth of
`NotificationScheduler.process_pending_notifications`: the query filters on
the same awaiting-notification predicate; a fresh record is created with the
service's attempt budget, `send_notification` updates it, and on success the
deposit's `notification_generated` flag is set. -/
def schedProcessStep (reqConf maxA : Nat) (ok : Bool) (resp err : String)
    (now retryDelay : Rat) (s : OutboxState) : OutboxState :=
  if awaitingNotification reqConf s.deposit then
    let nr := newNotifRec s.deposit.txHash maxA
    let nr1 := sendNotificationUpdate nr ok resp err now retryDelay
    if ok then
      { deposit := { s.deposit with notificationGenerated := true },
        notifs := s.notifs ++ [nr1] }
    else
      { deposit := s.deposit, notifs := s.notifs ++ [nr1] }
  else s

/-- The notification-creating operations of the system, with the data each
call site supplies. -/
inductive OutboxStep
  | confSend (reqConf : Nat) (ok : Bool) (resp err : String) (now : Rat)
  | schedProcess (reqConf maxA : Nat) (ok : Bool) (resp err : String)
      (now retryDelay : Rat)
  deriving Repr

/-- Apply one outbox operation. -/
def applyStep : OutboxStep → OutboxState → OutboxState
  | .confSend reqConf ok resp err now, s => confSendStep reqConf ok resp err now s
  | .schedProcess reqConf maxA ok resp err now retryDelay, s =>
    schedProcessStep reqConf maxA ok resp err now retryDelay s

/-- Apply a sequence of outbox operations. -/
def applySteps (steps : List OutboxStep) (s : OutboxState) : OutboxState :=
  steps.foldl (fun acc st => applyStep st acc) s

/-- Pending-confirmation state of `ConfirmationManager` as touched by
`check_confirmations`: the per-block pending transaction hashes, the time of
the last completed check, and the confirmed-transaction counter. -/
structure ConfMgrState where
  pendingByBlock : List (Nat × List String)
  lastCheckTime : Rat
  confirmedCount : Nat
  deriving DecidableEq, Repr

/-- Models `ConfirmationManager.check_confirmations` for one invocation at
time `now`: return untouched when called within the check interval of the
last completed check or with an empty pending index; return untouched (but
after an RPC round-trip) when the head fetch fails; otherwise confirm and
remove every block with enough confirmations and record the completion time.
The second component reports whether the head was fetched. -/
def checkConfirmationsStep (interval : Rat) (reqConf : Nat) (now : Rat)
    (head : Option Nat) (s : ConfMgrState) : ConfMgrState × Bool :=
  if now - s.lastCheckTime < interval then (s, false)
  else if s.pendingByBlock = [] then (s, false)
  else
    match head with
    | none => (s, true)
    | some cur =>
      let confirmed := s.pendingByBlock.filter fun bt =>
        reqConf ≤ cur + 1 - bt.1
      let remaining := s.pendingByBlock.filter fun bt =>
        !(reqConf ≤ cur + 1 - bt.1)
      ({ pendingByBlock := remaining,
         lastCheckTime := now,
         confirmedCount :=
           s.confirmedCount + (confirmed.map fun bt => bt.2.length).sum },
       true)

/-- JSON values as far as `_validate_message` inspects them. -/
inductive Json
  | obj (fields : List (String × Json))
  | str (s : HexStr)
  | num (n : Int)
  | null

/-- Models `AsyncRabbitMQConsumer._validate_message`: the body must be a JSON
object whose `address` field is a non-empty string. The 42-character `0x`
format check in the source only logs a warning and does not affect the
result. -/
def validateMessage : Json → Bool
  | .obj fields =>
    match fields.lookup "address" with
    | some (.str a) => !(a = [])
    | some _ => false
    | none => false
  | _ => false

/-- The `0x` format test that `_validate_message` warns about:
`address.startswith('0x') and len(address) == 42`. -/
def addressFormatOk (a : HexStr) : Bool :=
  a.take 2 = ['0', 'x'] && a.length = 42

/-- Address extracted by `WalletUpdateHandler.handle_wallet_update` from a
validated message. -/
def messageAddress : Json → Option HexStr
  | .obj fields =>
    match fields.lookup "address" with
    | some (.str a) => some a
    | _ => none
  | _ => none

/-- Models the consume path `_process_message` → `handle_wallet_update` →
`add_watch_address` acting on the watched-address configuration: an invalid
message is dropped, a validated one has its address added. -/
def processBusMessage (cfg : MonitorConfig) (m : Json) : MonitorConfig :=
  if validateMessage m then
    match messageAddress m with
    | some a => addWatchAddress cfg a
    | none => cfg
  else cfg

/-- The notification-record states the system can construct, tracking every
call site that creates or mutates a `NotificationRecord`: creation with a
positive attempt budget (the configured `retry_times`, 3 by default); the
confirmation manager marking a record sent or failed without a retry time;
and the scheduler running `send_notification` once on a freshly created
record. -/
inductive ReachableNotif : NotifRec → Prop
  | created (txHash : String) (maxA : Nat) (h : 1 ≤ maxA) :
      ReachableNotif (newNotifRec txHash maxA)
  | confSent (r : NotifRec) (resp : String) (now : Rat)
      (h : ReachableNotif r) : ReachableNotif (markAsSent r resp now)
  | confFailed (r : NotifRec) (err : String) (now : Rat)
      (h : ReachableNotif r) : ReachableNotif (markAsFailed r err none now)
  | schedSend (txHash : String) (maxA : Nat) (h : 1 ≤ maxA) (ok : Bool)
      (resp err : String) (now retryDelay : Rat) :
      ReachableNotif
        (sendNotificationUpdate (newNotifRec txHash maxA) ok resp err now
          retryDelay)

/-! ## General lemmas about the embedded operations -/

theorem newBlocksLoop_eq_filter (fetch : Nat → BlockFetch) (l : List Nat) :
    newBlocksLoop fetch l = l.filter fun n => decide (fetch n = .ok) := by
  induction l with
  | nil => rfl
  | cons n rest ih =>
    cases h : fetch n <;>
      simp [newBlocksLoop, h, ih, List.filter_cons]

/-! ## C3: BlockNotFound handling in the head loop -/

/-- A head-loop iteration over blocks 11 and 12 in which block 11 raises
`BlockNotFound` and block 12 processes normally. -/
def fetchSkip11 : Nat → BlockFetch := fun n => if n = 11 then .notFound else .ok

/-- C3 counterexample: starting from `last_block = 10` with head 12, block 11
raises `BlockNotFound`; the loop does skip 11 and process 12, but
`_process_new_blocks` still returns the head 12 as the new `last_block`, so
`last` has advanced past the missing block 11 and the next tick starts at 13:
block 11 is never retried, contradicting the claim. -/
theorem C3_counterexample :
    processNewBlocks 10 (some 12) fetchSkip11 = (12, [12]) ∧ 11 < 12 := by
  constructor
  · rfl
  · decide

/-- C3 amended: in every iteration of the head loop, a `BlockNotFound` on
block `n` skips `n` and continues with `n + 1` (exactly the successfully
fetched blocks of the range are processed), but the new `last_block` is
always set to the fetched head, past any missing block, so a missing block is
not retried on the next tick. -/
theorem C3_skip_but_advance (lastBlock cur : Nat) (fetch : Nat → BlockFetch) :
    (processNewBlocks lastBlock (some cur) fetch).1 = cur ∧
    (processNewBlocks lastBlock (some cur) fetch).2 =
      (List.range' (lastBlock + 1) (cur - lastBlock)).filter
        (fun n => decide (fetch n = .ok)) := by
  exact ⟨rfl, newBlocksLoop_eq_filter fetch _⟩

/-! ## C5: webhook attempt success classification -/

/-- C5 counterexample: an HTTP 204 response is in the 2xx range, yet
`send_notification_async` counts the attempt as failed, because its success
test is `response.status == 200`, not a 2xx-range test. -/
theorem C5_counterexample :
    attemptSucceeds (.httpStatus 204) = false ∧ 200 ≤ 204 ∧ 204 < 300 := by
  decide

/-- C5 amended: a webhook delivery attempt counts as a success if and only if
the HTTP response status is exactly 200; every other status code (including
other 2xx codes), a timeout, and every network or other error count as a
failed attempt. -/
theorem C5_success_iff_200 (o : AttemptOutcome) :
    attemptSucceeds o = true ↔ o = .httpStatus 200 := by
  cases o <;> simp [attemptSucceeds]

/-! ## C7: mark_confirmed on an already-confirmed record -/

/-- A deposit row that is already confirmed with 5 confirmations. -/
def depConfirmed5 : DepositRec :=
  { txHash := "0xh1", status := "confirmed", confirmations := 5,
    notificationGenerated := false, userId := "u", processedAt := none }

/-- C7 counterexample: updating the already-confirmed row with
`("confirmed", 3)` is not a no-op — the stored confirmation count drops from
5 to 3, contradicting both the no-effect clause and monotonicity. -/
theorem C7_counterexample :
    updateTransactionStatus [depConfirmed5] "0xh1" "confirmed" 3 =
      (true, [{ depConfirmed5 with confirmations := 3 }]) ∧
    3 < depConfirmed5.confirmations := by
  constructor
  · rfl
  · decide

/-- C7 amended: `update_transaction_status_async` unconditionally overwrites
the status and confirmation count of the row matching the `tx_hash`
(reporting success), with no already-confirmed guard, so a later call with a
smaller confirmation count decreases the stored value. -/
theorem C7_unconditional_overwrite (r : DepositRec) (rest : List DepositRec)
    (st : String) (conf : Nat) :
    updateTransactionStatus (r :: rest) r.txHash st conf =
      (true, { r with status := st, confirmations := conf } :: rest) := by
  simp [updateTransactionStatus]

/-! ## C10: confirmation tick inside the check interval -/

/-- C10: a `check_confirmations` call made less than
`confirmation_check_interval` seconds after the previous completed check
returns immediately: the head is not fetched and the manager state — pending
index, last-check time and counters — is returned unchanged. -/
theorem C10_tick_early_return (interval : Rat) (reqConf : Nat) (now : Rat)
    (head : Option Nat) (s : ConfMgrState)
    (h : now - s.lastCheckTime < interval) :
    checkConfirmationsStep interval reqConf now head s = (s, false) := by
  unfold checkConfirmationsStep
  rw [if_pos h]

/-- Concrete instantiation of `C10_tick_early_return`: a tick at time 55,
five seconds after a completed check at 50 with a ten-second interval, leaves
the state untouched and fetches nothing. -/
theorem C10_tick_early_return_witness :
    checkConfirmationsStep 10 3 55 (some 200)
        { pendingByBlock := [(100, ["0xh1"])], lastCheckTime := 50,
          confirmedCount := 0 } =
      ({ pendingByBlock := [(100, ["0xh1"])], lastCheckTime := 50,
         confirmedCount := 0 }, false) :=
  C10_tick_early_return 10 3 55 (some 200) _ (by norm_num)

/-! ## C2: the retry cap invariant -/

theorem markAsFailed_attemptCount (r : NotifRec) (err : String)
    (nextRetry : Option Rat) (now : Rat) :
    (markAsFailed r err nextRetry now).attemptCount = r.attemptCount := by
  simp only [markAsFailed]
  split <;> rfl

theorem markAsFailed_maxAttempts (r : NotifRec) (err : String)
    (nextRetry : Option Rat) (now : Rat) :
    (markAsFailed r err nextRetry now).maxAttempts = r.maxAttempts := by
  simp only [markAsFailed]
  split <;> rfl

theorem sendNotificationUpdate_attemptCount (r : NotifRec) (ok : Bool)
    (resp err : String) (now retryDelay : Rat) :
    (sendNotificationUpdate r ok resp err now retryDelay).attemptCount =
      r.attemptCount + 1 := by
  unfold sendNotificationUpdate
  split
  · rfl
  · rw [markAsFailed_attemptCount]
    rfl

theorem sendNotificationUpdate_maxAttempts (r : NotifRec) (ok : Bool)
    (resp err : String) (now retryDelay : Rat) :
    (sendNotificationUpdate r ok resp err now retryDelay).maxAttempts =
      r.maxAttempts := by
  unfold sendNotificationUpdate
  split
  · rfl
  · rw [markAsFailed_maxAttempts]
    rfl

/-- C2: every notification record the system can construct satisfies
`attempt_count ≤ max_attempts`; and marking a record that has reached its cap
as failed transitions its status to `failed_final` and clears
`next_retry_at`. -/
theorem C2_retry_cap :
    (∀ r : NotifRec, ReachableNotif r → r.attemptCount ≤ r.maxAttempts) ∧
    (∀ (r : NotifRec) (err : String) (nextRetry : Option Rat) (now : Rat),
      isMaxAttemptsReached r = true →
      (markAsFailed r err nextRetry now).status = "failed_final" ∧
      (markAsFailed r err nextRetry now).nextRetryAt = none) := by
  constructor
  · intro r hr
    induction hr with
    | created txHash maxA h => exact Nat.zero_le _
    | confSent r resp now h ih => exact ih
    | confFailed r err now h ih =>
      rw [markAsFailed_attemptCount, markAsFailed_maxAttempts]
      exact ih
    | schedSend txHash maxA h ok resp err now retryDelay =>
      rw [sendNotificationUpdate_attemptCount, sendNotificationUpdate_maxAttempts]
      exact h
  · intro r err nextRetry now h
    have h1 : isMaxAttemptsReached
        { r with status := "failed", lastAttemptAt := some now,
                 errorMessage := err, nextRetryAt := nextRetry } = true := h
    unfold markAsFailed
    rw [if_pos h1]
    exact ⟨rfl, rfl⟩

/-- Concrete instantiation of `C2_retry_cap`: a record created by the
scheduler with the default budget of 3 and sent through one failed delivery
satisfies the cap, and a record at its cap becomes `failed_final` with the
retry time cleared. -/
theorem C2_retry_cap_witness :
    (sendNotificationUpdate (newNotifRec "0xh1" 3) false "" "boom" 7
        5).attemptCount ≤
      (sendNotificationUpdate (newNotifRec "0xh1" 3) false "" "boom" 7
        5).maxAttempts ∧
    (markAsFailed { newNotifRec "0xh1" 3 with attemptCount := 3 } "boom"
        (some 9) 7).status = "failed_final" := by
  constructor
  · exact C2_retry_cap.1 _
      (.schedSend "0xh1" 3 (by norm_num) false "" "boom" 7 5)
  · exact (C2_retry_cap.2 _ "boom" (some 9) 7 (by decide)).1

/-! ## C1: the exactly-once notification gate -/

theorem applyStep_of_generated (st : OutboxStep) (s : OutboxState)
    (h : s.deposit.notificationGenerated = true) : applyStep st s = s := by
  have hnot : ∀ reqConf, awaitingNotification reqConf s.deposit = false := by
    intro reqConf
    simp [awaitingNotification, h]
  cases st with
  | confSend reqConf ok resp err now =>
    simp [applyStep, confSendStep, hnot]
  | schedProcess reqConf maxA ok resp err now retryDelay =>
    simp [applyStep, schedProcessStep, hnot]

/-- C1: when the webhook delivery for a deposit selected by the
awaiting-notification query succeeds, the single transaction of
`_send_notification_async` appends exactly one notification record marked
`sent` and sets the deposit's `notification_generated` flag; and once the
flag is `true`, no sequence of notification-creating operations (confirmation
sends or scheduler runs) ever creates another notification record for the
deposit — the state is left entirely unchanged. -/
theorem C1_exactly_once_gate :
    (∀ (reqConf : Nat) (resp err : String) (now : Rat) (s : OutboxState),
      awaitingNotification reqConf s.deposit = true →
      confSendStep reqConf true resp err now s =
        { deposit := markNotificationGenerated s.deposit now,
          notifs := s.notifs ++
            [markAsSent (newNotifRec s.deposit.txHash 3) resp now] } ∧
      (markAsSent (newNotifRec s.deposit.txHash 3) resp now).status = "sent" ∧
      (markNotificationGenerated s.deposit now).notificationGenerated = true) ∧
    (∀ (steps : List OutboxStep) (s : OutboxState),
      s.deposit.notificationGenerated = true →
      applySteps steps s = s) := by
  constructor
  · intro reqConf resp err now s h
    refine ⟨?_, rfl, rfl⟩
    unfold confSendStep
    rw [if_pos h, if_pos rfl]
  · intro steps
    induction steps with
    | nil => intro s _; rfl
    | cons st rest ih =>
      intro s h
      have h1 : applyStep st s = s := applyStep_of_generated st s h
      show applySteps rest (applyStep st s) = s
      rw [h1]
      exact ih s h

/-- Concrete instantiation of `C1_exactly_once_gate`: a successful delivery
for the confirmed deposit marks the freshly created record sent and flips the
flag in the same step, and a further confirmation send plus scheduler run on
the flagged state change nothing. -/
theorem C1_exactly_once_gate_witness :
    confSendStep 3 true "resp" "" 77 { deposit := depConfirmed5, notifs := [] } =
      { deposit := markNotificationGenerated depConfirmed5 77,
        notifs := [markAsSent (newNotifRec "0xh1" 3) "resp" 77] } ∧
    applySteps [.confSend 3 true "r2" "" 99, .schedProcess 3 3 false "" "e" 100 5]
        { deposit := { depConfirmed5 with notificationGenerated := true },
          notifs := [] } =
      { deposit := { depConfirmed5 with notificationGenerated := true },
        notifs := [] } := by
  constructor
  · exact (C1_exactly_once_gate.1 3 "resp" "" 77
      { deposit := depConfirmed5, notifs := [] } (by decide)).1
  · exact C1_exactly_once_gate.2 _ _ rfl

/-! ## Shape of a successful ERC-20 decode -/

theorem parseErc20_tTo_shape (p : TokenParser) (sym : String) (tx : Tx)
    (info : TokenInfo) (h : parseErc20Transfer p sym tx = some info) :
    ∃ rest, info.tTo = Char.toLower '0' :: Char.toLower 'x' :: rest := by
  simp only [parseErc20Transfer] at h
  repeat' split at h
  all_goals first
    | (rw [Option.some_inj] at h
       subst h
       exact ⟨_, rfl⟩)
    | simp at h

/-! ## C8: the large-amount threshold policy -/

theorem largeAmount_native_accept_iff (cfg : MonitorConfig) (tx : Tx)
    (hstrat : cfg.strategy = .largeAmount) (hv : ¬tx.valueWei = 0) :
    (processNativeTransaction cfg tx).isSome = true ↔
      ∃ th, cfg.thresholds.lookup cfg.tokenName = some th ∧
        th ≤ (tx.valueWei : Rat) / (10 : Rat) ^ (18 : Nat) := by
  unfold processNativeTransaction
  rw [if_neg hv, hstrat]
  simp only [getThreshold, hstrat, if_pos]
  cases hlook : cfg.thresholds.lookup cfg.tokenName with
  | some th => simp [floatLt, hlook, not_lt]
  | none => simp [floatLt, hlook]

theorem largeAmount_token_accept_iff (cfg : MonitorConfig) (p : TokenParser)
    (tx : Tx) (t0 : HexStr) (sym : String) (info : TokenInfo)
    (hstrat : cfg.strategy = .largeAmount) (ht : tx.txTo = some t0)
    (ht0 : ¬t0 = []) (hsym : isTokenContract p t0 = some sym)
    (hparse : parseErc20Transfer p sym tx = some info) :
    (processTokenTransaction cfg p tx).isSome = true ↔
      ∃ th, cfg.thresholds.lookup sym = some th ∧ th ≤ info.amount := by
  obtain ⟨rest, hrest⟩ := parseErc20_tTo_shape p sym tx info hparse
  unfold processTokenTransaction
  rw [ht]
  simp only [if_neg ht0, hsym, hparse]
  simp only [tokenShouldProcess, hstrat, getThreshold]
  cases hlook : cfg.thresholds.lookup sym with
  | some th => simp [floatGe, hlook, hrest, lowerStr]
  | none => simp [floatGe, hlook]

/-- C8: under the large-amount strategy, a non-zero native transfer is
accepted iff the ether amount reaches the configured threshold for the native
symbol, and a decodable token transfer to a known contract is accepted iff
the decoded amount reaches the configured threshold for the contract's
symbol; in both cases a symbol with no threshold entry is always rejected
(its `float('inf')` default exceeds every amount). -/
theorem C8_large_amount_policy :
    (∀ (cfg : MonitorConfig) (tx : Tx),
      cfg.strategy = .largeAmount → ¬tx.valueWei = 0 →
      ((processNativeTransaction cfg tx).isSome = true ↔
        ∃ th, cfg.thresholds.lookup cfg.tokenName = some th ∧
          th ≤ (tx.valueWei : Rat) / (10 : Rat) ^ (18 : Nat))) ∧
    (∀ (cfg : MonitorConfig) (p : TokenParser) (tx : Tx) (t0 : HexStr)
      (sym : String) (info : TokenInfo),
      cfg.strategy = .largeAmount → tx.txTo = some t0 → ¬t0 = [] →
      isTokenContract p t0 = some sym →
      parseErc20Transfer p sym tx = some info →
      ((processTokenTransaction cfg p tx).isSome = true ↔
        ∃ th, cfg.thresholds.lookup sym = some th ∧ th ≤ info.amount)) :=
  ⟨largeAmount_native_accept_iff, largeAmount_token_accept_iff⟩

/-! ## Concrete pipeline example: an ERC-20 self-transfer -/

/-- The example address `0x` + 40 `a`s. -/
def exAddrA : HexStr := '0' :: 'x' :: List.replicate 40 'a'

/-- The example token-contract address `0x` + 40 `c`s. -/
def exContractC : HexStr := '0' :: 'x' :: List.replicate 40 'c'

/-- Calldata of `transfer(0xaa…aa, 5)`: selector, the zero-padded recipient
`0xaa…aa`, and the 64-hex-char amount `…0005`. -/
def exInputSelf : HexStr :=
  transferSelector ++ List.replicate 24 '0' ++ List.replicate 40 'a' ++
    (List.replicate 63 '0' ++ ['5'])

/-- A parser that knows USDT at the example contract with 0 decimals. -/
def exParser : TokenParser :=
  { contracts := [("USDT", some exContractC)], decimals := [("USDT", 0)] }

/-- A large-amount configuration with thresholds 1 for USDT and BNB. -/
def exCfgLarge : MonitorConfig :=
  { strategy := .largeAmount, tokenName := "BNB",
    thresholds := [("USDT", 1), ("BNB", 1)],
    watchAddresses := [], watchedSet := [],
    requiredConfirmations := 3, confirmationCheckInterval := 10 }

/-- A USDT self-transfer: `0xaa…aa` sends 5 USDT to itself through the token
contract, so the raw transaction's `to` is the contract while the decoded
recipient equals the sender. -/
def exTxSelf : Tx :=
  { hash := "0xh1", txFrom := exAddrA, txTo := some exContractC, valueWei := 0,
    input := exInputSelf, blockNumber := 100 }

/-- The decode of `exTxSelf`: recipient `0xaa…aa`, amount 5. -/
def exInfoSelf : TokenInfo :=
  { tFrom := exAddrA, tTo := lowerStr ('0' :: 'x' :: List.replicate 40 'a'),
    amount := ((5 : Nat) : Rat) / (10 : Rat) ^ (0 : Nat), token := "USDT",
    contract := lowerStr exContractC, rawAmountWei := 5 }

set_option maxRecDepth 20000 in
theorem exParse_eq : parseErc20Transfer exParser "USDT" exTxSelf =
    some exInfoSelf := by
  rfl

set_option maxRecDepth 20000 in
theorem exNative_eq : processNativeTransaction exCfgLarge exTxSelf = none := by
  rfl

set_option maxRecDepth 20000 in
theorem exContract_eq : isTokenContract exParser exContractC = some "USDT" := by
  rfl

set_option maxRecDepth 20000 in
theorem exShould_eq :
    tokenShouldProcess exCfgLarge "USDT" exInfoSelf = true := by
  simp only [tokenShouldProcess, exCfgLarge, getThreshold]
  norm_num [List.lookup, floatGe, exInfoSelf, lowerStr, List.cons_ne_nil]

set_option maxRecDepth 20000 in
theorem exToken_eq : processTokenTransaction exCfgLarge exParser exTxSelf =
    some { hash := "0xh1", value := exInfoSelf.amount, txType := "USDT",
           blockNumber := 100, tokenInfo := some exInfoSelf } := by
  have htxTo : exTxSelf.txTo = some exContractC := rfl
  have hcne : (exContractC = []) = False := by simp [exContractC]
  simp only [processTokenTransaction, htxTo, hcne, if_false, exContract_eq,
    exParse_eq, exShould_eq, if_true]
  rfl

/-! ## C4: self-transfer rejection -/

set_option maxRecDepth 20000 in
/-- C4 counterexample: the USDT self-transfer `exTxSelf` — whose decoded
recipient equals its sender — is accepted under the large-amount policy: the
deposit-store save is issued and the transfer is added to the pending index
(the monitor-level guard compares the raw `to`, the contract address, with
the sender and therefore does not fire), contradicting the claim that every
such transfer enters neither. -/
theorem C4_counterexample :
    lowerStr exInfoSelf.tTo = lowerStr exTxSelf.txFrom ∧
    parseErc20Transfer exParser "USDT" exTxSelf = some exInfoSelf ∧
    processSingleBlockTx exCfgLarge exParser exTxSelf = (true, true) := by
  refine ⟨by decide, exParse_eq, ?_⟩
  have hall : processTransaction exCfgLarge exParser exTxSelf =
      some { hash := "0xh1", value := exInfoSelf.amount, txType := "USDT",
             blockNumber := 100, tokenInfo := some exInfoSelf } := by
    simp only [processTransaction, exNative_eq, exToken_eq]
  have htxTo : exTxSelf.txTo = some exContractC := rfl
  simp only [processSingleBlockTx, hall, htxTo]
  rw [if_neg (by decide)]

/-- C4 amended: only the watch-address strategy rejects an ERC-20 transfer
whose decoded recipient equals its sender (the transfer then enters neither
the pending index nor the deposit store); independently of strategy, the
guard in `_process_single_block` keeps a transfer out of the pending index
only when the raw transaction's `from` equals its raw `to` — for ERC-20 the
contract address, not the decoded recipient — and that guard runs after the
deposit-store save has already been issued. -/
theorem C4_selftransfer_amended :
    (∀ (cfg : MonitorConfig) (p : TokenParser) (tx : Tx) (t0 : HexStr)
      (sym : String) (info : TokenInfo),
      cfg.strategy = .watchAddress → tx.txTo = some t0 →
      isTokenContract p t0 = some sym →
      parseErc20Transfer p sym tx = some info →
      lowerStr info.tTo = lowerStr info.tFrom →
      processTokenTransaction cfg p tx = none) ∧
    (∀ (cfg : MonitorConfig) (p : TokenParser) (tx : Tx) (t0 : HexStr),
      tx.txTo = some t0 → lowerStr tx.txFrom = lowerStr t0 →
      (processSingleBlockTx cfg p tx).2 = false) := by
  constructor
  · intro cfg p tx t0 sym info hstrat ht hsym hparse heq
    unfold processTokenTransaction
    rw [ht]
    dsimp only
    by_cases h0 : t0 = []
    · rw [if_pos h0]
    · simp only [if_neg h0, hsym, hparse]
      rw [if_neg]
      simp [tokenShouldProcess, hstrat, heq]
  · intro cfg p tx t0 ht heq
    unfold processSingleBlockTx
    cases hpt : processTransaction cfg p tx with
    | none => rfl
    | some info =>
      simp only [ht]
      rw [if_pos heq]

/-- Concrete instantiation of `C4_selftransfer_amended`: a native transfer
whose raw `from` equals its raw `to` is kept out of the pending index by the
monitor-level guard. -/
theorem C4_selftransfer_amended_witness :
    (processSingleBlockTx exCfgLarge exParser
      { hash := "0xh2", txFrom := exAddrA, txTo := some exAddrA,
        valueWei := 7 * 10 ^ 18, input := [], blockNumber := 101 }).2 =
      false :=
  C4_selftransfer_amended.2 exCfgLarge exParser _ exAddrA rfl rfl

/-- Concrete instantiation of `C8_large_amount_policy`: the 5-USDT transfer
`exTxSelf` clears the threshold 1 and is accepted. -/
theorem C8_large_amount_policy_witness :
    (processTokenTransaction exCfgLarge exParser exTxSelf).isSome = true :=
  (C8_large_amount_policy.2 exCfgLarge exParser exTxSelf exContractC "USDT"
      exInfoSelf rfl rfl (by decide) exContract_eq exParse_eq).mpr
    ⟨1, rfl, by norm_num [exInfoSelf]⟩

/-! ## C9: address-update bus validation -/

/-- A bus message whose address `"zz"` is not a 42-character `0x` hex
string. -/
def exBadMsg : Json := .obj [("address", .str ['z', 'z'])]

/-- A watch-address configuration with an empty watched set. -/
def exCfgWatch : MonitorConfig :=
  { strategy := .watchAddress, tokenName := "BNB", thresholds := [],
    watchAddresses := [], watchedSet := [],
    requiredConfirmations := 3, confirmationCheckInterval := 10 }

/-- C9 counterexample: the message `{"address": "zz"}` fails the 42-character
`0x` format test, yet `_validate_message` accepts it (the format check only
logs a warning) and the consume path inserts `"zz"` into the watched set,
contradicting the claim that such messages are dropped. -/
theorem C9_counterexample :
    validateMessage exBadMsg = true ∧
    addressFormatOk ['z', 'z'] = false ∧
    (processBusMessage exCfgWatch exBadMsg).watchedSet = [['z', 'z']] := by
  refine ⟨rfl, by decide, ?_⟩
  rfl

/-- C9 amended: a bus message is dropped only when its body is not a JSON
object, lacks an `address` field, or that field is not a non-empty string;
the 42-character `0x` format test (hex digits are never checked) merely logs
a warning, and every message passing the basic string test has its address
added via `add_watch_address`, which inserts the lowercased address into the
watched lookup set when it is not already present. -/
theorem C9_validation_amended :
    (∀ m : Json, validateMessage m = false → ∀ cfg : MonitorConfig,
      processBusMessage cfg m = cfg) ∧
    (∀ (fields : List (String × Json)) (a : HexStr),
      fields.lookup "address" = some (.str a) → ¬a = [] →
      ∀ cfg : MonitorConfig,
        processBusMessage cfg (.obj fields) = addWatchAddress cfg a) ∧
    (∀ (cfg : MonitorConfig) (a : HexStr), lowerStr a ∉ cfg.watchedSet →
      (addWatchAddress cfg a).watchedSet = cfg.watchedSet ++ [lowerStr a]) := by
  refine ⟨?_, ?_, ?_⟩
  · intro m hm cfg
    unfold processBusMessage
    rw [hm]
    rfl
  · intro fields a hlook ha cfg
    have hval : validateMessage (.obj fields) = true := by
      unfold validateMessage
      dsimp only
      rw [hlook]
      simpa using ha
    have haddr : messageAddress (.obj fields) = some a := by
      unfold messageAddress
      dsimp only
      rw [hlook]
    unfold processBusMessage
    rw [hval, haddr]
    rfl
  · intro cfg a ha
    unfold addWatchAddress
    rw [if_neg ha]

/-- Concrete instantiation of `C9_validation_amended`: the accepted message
`{"address": "zz"}` lands in the previously empty watched set lowercased. -/
theorem C9_validation_amended_witness :
    processBusMessage exCfgWatch exBadMsg = addWatchAddress exCfgWatch ['z', 'z'] ∧
    (addWatchAddress exCfgWatch ['z', 'z']).watchedSet = [lowerStr ['z', 'z']] := by
  constructor
  · exact C9_validation_amended.2.1 [("address", .str ['z', 'z'])] ['z', 'z']
      rfl (by decide) exCfgWatch
  · exact C9_validation_amended.2.2 exCfgWatch ['z', 'z'] (by decide)

/-! ## C6: the ERC-20 calldata decode rules -/

/-- Every character of the list is a hex digit. -/
abbrev AllHex (l : HexStr) : Prop := ∀ c ∈ l, (hexDigitVal c).isSome = true

theorem allHex_take (l : HexStr) (n : Nat) (h : AllHex l) : AllHex (l.take n) :=
  fun c hc => h c (List.take_subset n l hc)

theorem allHex_drop (l : HexStr) (n : Nat) (h : AllHex l) : AllHex (l.drop n) :=
  fun c hc => h c (List.drop_subset n l hc)

theorem allHex_padRight (l : HexStr) (w : Nat) (h : AllHex l) :
    AllHex (padRight l w) := by
  intro c hc
  rcases List.mem_append.mp hc with h1 | h2
  · exact h c h1
  · rw [List.eq_of_mem_replicate h2]
    decide

theorem parseHexCore_total (l : HexStr) : ∀ acc : Nat, AllHex l →
    ∃ n, parseHexCore l acc = some n := by
  induction l with
  | nil => exact fun acc _ => ⟨acc, rfl⟩
  | cons c rest ih =>
    intro acc h
    obtain ⟨d, hd⟩ := Option.isSome_iff_exists.mp (h c (List.mem_cons_self c rest))
    obtain ⟨n, hn⟩ := ih (16 * acc + d) fun x hx => h x (List.mem_cons_of_mem c hx)
    exact ⟨n, by simp [parseHexCore, hd, hn]⟩

theorem parseHexNat_total (l : HexStr) (hne : ¬l = []) (h : AllHex l) :
    ∃ n, parseHexNat l = some n := by
  obtain ⟨n, hn⟩ := parseHexCore_total l 0 h
  exact ⟨n, by simp [parseHexNat, hne, hn]⟩

theorem isValidAddress_hex (l : HexStr) (hlen : l.length = 40) (h : AllHex l) :
    isValidAddress ('0' :: 'x' :: l) = true := by
  have hne : ¬l = [] := by
    intro h0
    rw [h0] at hlen
    simp at hlen
  obtain ⟨n, hn⟩ := parseHexNat_total l hne h
  simp [isValidAddress, hlen, hn]

theorem toLower_digit0 : Char.toLower '0' = '0' := rfl

theorem toLower_letterx : Char.toLower 'x' = 'x' := rfl

theorem lowerStr_addr (l : HexStr) :
    lowerStr ('0' :: 'x' :: ((l.drop 8).take 64).drop 24) =
      '0' :: 'x' :: lowerStr ((l.drop 32).take 40) := by
  simp [lowerStr, toLower_digit0, toLower_letterx, List.drop_take,
    List.drop_drop]

/-- C6: for a transaction addressed to a known token contract whose
normalised calldata is all-hex, at least 72 characters long and starts with
the `transfer` selector: the decoder emits `0x` plus the lowercased low 40
characters of `hex[8:72]` as the recipient; the amount integer is parsed from
`hex[72:136]` when at least 136 characters are present, from `hex[72:]`
right-padded with `'0'` to 64 characters when the length is strictly between
72 and 136, and the transaction is rejected when the length is exactly 72. -/
theorem C6_erc20_decode (p : TokenParser) (sym : String) (tx : Tx)
    (contract t hd : HexStr)
    (hc : p.contracts.lookup sym = some (some contract))
    (ht : tx.txTo = some t) (ht0 : ¬t = [])
    (hmatch : lowerStr t = lowerStr contract)
    (hinp : ¬tx.input = [])
    (hhd : normalizeHex tx.input = hd)
    (hhex : AllHex hd)
    (hlen : 72 ≤ hd.length)
    (hsel : lowerStr (hd.take 8) = transferSelector) :
    (136 ≤ hd.length →
      ∃ n, parseHexNat ((hd.drop 72).take 64) = some n ∧
        parseErc20Transfer p sym tx = some
          { tFrom := tx.txFrom,
            tTo := '0' :: 'x' :: lowerStr ((hd.drop 32).take 40),
            amount := (n : Rat) / (10 : Rat) ^ ((p.decimals.lookup sym).getD 18),
            token := sym, contract := lowerStr contract,
            rawAmountWei := n }) ∧
    (72 < hd.length → hd.length < 136 →
      ∃ n, parseHexNat (padRight (hd.drop 72) 64) = some n ∧
        parseErc20Transfer p sym tx = some
          { tFrom := tx.txFrom,
            tTo := '0' :: 'x' :: lowerStr ((hd.drop 32).take 40),
            amount := (n : Rat) / (10 : Rat) ^ ((p.decimals.lookup sym).getD 18),
            token := sym, contract := lowerStr contract,
            rawAmountWei := n }) ∧
    (hd.length = 72 → parseErc20Transfer p sym tx = none) := by
  have hg2 : ¬(lowerStr t ≠ lowerStr contract) := fun hne => hne hmatch
  have hg4 : ¬(hd.length < 72) := not_lt.mpr hlen
  have hg5 : ¬(lowerStr (hd.take 8) ≠ transferSelector) := fun hne => hne hsel
  have haddrlen : (((hd.drop 8).take 64).drop 24).length = 40 := by
    simp [List.length_take, List.length_drop]
    omega
  have hvalid : isValidAddress ('0' :: 'x' :: ((hd.drop 8).take 64).drop 24) =
      true :=
    isValidAddress_hex _ haddrlen
      (allHex_drop _ 24 (allHex_take _ 64 (allHex_drop _ 8 hhex)))
  refine ⟨?_, ?_, ?_⟩
  · intro h136
    have hne : ¬((hd.drop 72).take 64) = [] := by
      have hl : ((hd.drop 72).take 64).length = 64 := by
        simp [List.length_take, List.length_drop]
        omega
      intro h0
      rw [h0] at hl
      simp at hl
    obtain ⟨n, hn⟩ :=
      parseHexNat_total _ hne (allHex_take _ 64 (allHex_drop _ 72 hhex))
    refine ⟨n, hn, ?_⟩
    unfold parseErc20Transfer
    simp only [hc, ht, hhd]
    rw [if_neg ht0, if_neg hg2, if_neg hinp, if_neg hg4, if_neg hg5,
      if_pos h136]
    dsimp only
    rw [hn]
    dsimp only
    rw [if_pos hvalid, lowerStr_addr]
  · intro h72 h136
    have hne : ¬(padRight (hd.drop 72) 64) = [] := by
      have hl : 0 < (padRight (hd.drop 72) 64).length := by
        simp [padRight, List.length_drop]
        omega
      intro h0
      rw [h0] at hl
      simp at hl
    obtain ⟨n, hn⟩ :=
      parseHexNat_total _ hne (allHex_padRight _ 64 (allHex_drop _ 72 hhex))
    refine ⟨n, hn, ?_⟩
    unfold parseErc20Transfer
    simp only [hc, ht, hhd]
    rw [if_neg ht0, if_neg hg2, if_neg hinp, if_neg hg4, if_neg hg5,
      if_neg (not_le.mpr h136), if_pos h72]
    dsimp only
    rw [hn]
    dsimp only
    rw [if_pos hvalid, lowerStr_addr]
  · intro h72
    unfold parseErc20Transfer
    simp only [hc, ht, hhd]
    rw [if_neg ht0, if_neg hg2, if_neg hinp, if_neg hg4, if_neg hg5,
      if_neg (by omega : ¬(136 ≤ hd.length)),
      if_neg (by omega : ¬(72 < hd.length))]

set_option maxRecDepth 40000 in
/-- Concrete instantiation of `C6_erc20_decode`: the 136-character calldata
of `exTxSelf` decodes to recipient `0xaa…aa` with the amount parsed from
`hex[72:136]`. -/
theorem C6_erc20_decode_witness :
    ∃ n, parseHexNat ((exInputSelf.drop 72).take 64) = some n ∧
      parseErc20Transfer exParser "USDT" exTxSelf = some
        { tFrom := exTxSelf.txFrom,
          tTo := '0' :: 'x' :: lowerStr ((exInputSelf.drop 32).take 40),
          amount := (n : Rat) /
            (10 : Rat) ^ ((exParser.decimals.lookup "USDT").getD 18),
          token := "USDT", contract := lowerStr exContractC,
          rawAmountWei := n } :=
  (C6_erc20_decode exParser "USDT" exTxSelf exContractC exContractC
      exInputSelf rfl rfl (by decide) rfl (by decide) rfl (by decide)
      (by decide) (by decide)).1 (by decide)

end EvmMonitor
